import Mathlib

/-!
Shallow embedding of the connection registry and request codec of
`src/server/connection.c`, together with theorems settling the claims of the
specification against it.

Conventions of the embedding:
* C byte buffers that the code treats as NUL-terminated strings are modelled
  as `List Char` holding the bytes before the first NUL (the callers of
  `parse_request` zero their buffers before `recv`, so a buffer is exactly
  the received bytes up to the first NUL byte).
* Machine integers that can go negative (`conn_count`) are modelled as `Int`;
  sizes and indices are `Nat`.
* Fallible C functions returning `-1` are modelled with `Option`.
-/

set_option maxRecDepth 8192

namespace Flow

/-- MAX_CONNECTIONS from connection.c line 16. -/
def MAX_CONNECTIONS : Nat := 100

/-- RECV_BUFFER_SIZE from connection.c line 17. -/
def RECV_BUFFER_SIZE : Nat := 2048

/-- Size of the `body` stack buffer of `handle_connection` (line 79). -/
def BODY_BUFFER_SIZE : Nat := 1024

/-! ### Protocol codec: `parse_request` (connection.c lines 43-59) -/

/-- Whitespace in the sense of `sscanf` and of the C locale: space, tab,
newline, vertical tab, form feed, carriage return. -/
def isSpaceChar (c : Char) : Bool :=
  c = ' ' || c = '\t' || c = '\n' || c = Char.ofNat 11 || c = Char.ofNat 12 || c = '\r'

/-- Whether `pat` occurs as the initial segment of `l` (the test `strstr`
performs at one position). -/
def matchesAt : List Char → List Char → Bool
  | [], _ => true
  | _ :: _, [] => false
  | p :: ps, c :: cs => p == c && matchesAt ps cs

/-- Index of the first occurrence of `pat` in `l`, as computed by `strstr`
(`none` when `strstr` returns NULL). -/
def findSubstr (pat : List Char) : List Char → Option Nat
  | [] => if matchesAt pat [] then some 0 else none
  | c :: t => if matchesAt pat (c :: t) then some 0 else (findSubstr pat t).map (· + 1)

/-- The two-byte line terminator "\r\n" searched for at line 44. -/
def crlf : List Char := ['\r', '\n']

/-- The four-byte header/body separator "\r\n\r\n" searched for at line 53. -/
def sep4 : List Char := ['\r', '\n', '\r', '\n']

/-- Result of a successful `parse_request`: the `method` and `path` output
buffers written by `sscanf(raw, "%s %s", method, path)` (left empty when the
corresponding token is absent, since the caller zeroes them), and the bytes
copied into `body` by `strcpy(body, body_start + 4)` (empty when the
separator is absent). -/
structure ParsedReq where
  method : List Char
  path : List Char
  body : List Char
  deriving DecidableEq, Repr

/-- Embedding of `parse_request` (connection.c lines 43-59).  Fails (returns
`-1`, here `none`) exactly when `strstr(raw, "\r\n")` finds nothing.
Otherwise `sscanf(raw, "%s %s", method, path)` extracts up to two
whitespace-delimited tokens from the whole buffer — its return value is not
checked — and, if "\r\n\r\n" occurs, `strcpy` copies everything after it
into `body` with no length bound. -/
def parse_request (raw : List Char) : Option ParsedReq :=
  match findSubstr crlf raw with
  | none => none
  | some _ =>
    let s1 := raw.dropWhile isSpaceChar
    let method := s1.takeWhile (fun c => !isSpaceChar c)
    let s2 := (s1.dropWhile (fun c => !isSpaceChar c)).dropWhile isSpaceChar
    let path := s2.takeWhile (fun c => !isSpaceChar c)
    let body :=
      match findSubstr sep4 raw with
      | some i => raw.drop (i + 4)
      | none => []
    some ⟨method, path, body⟩

/-- Number of bytes `parse_request` writes into the caller's `body` buffer:
`strcpy(body, body_start + 4)` writes the whole suffix after the separator
plus its terminating NUL; nothing is written when the separator is absent. -/
def body_bytes_written (raw : List Char) : Nat :=
  match findSubstr sep4 raw with
  | some i => (raw.drop (i + 4)).length + 1
  | none => 0

/-- The whitespace-delimited tokens of a buffer, stated independently of the
`sscanf` scanning loop: split on whitespace and discard empty chunks. -/
def tokensOf (l : List Char) : List (List Char) :=
  (l.splitOnP isSpaceChar).filter (fun t => !t.isEmpty)

/-- The first line of a buffer: the bytes before the first "\r\n" (the whole
buffer when there is none). -/
def first_line (raw : List Char) : List Char :=
  raw.take ((findSubstr crlf raw).getD raw.length)

/-! ### Correctness of `findSubstr` with respect to occurrence positions -/

theorem findSubstr_none_matches (pat : List Char) :
    ∀ l : List Char, findSubstr pat l = none →
      ∀ j, matchesAt pat (l.drop j) = false := by
  intro l
  induction l with
  | nil =>
    intro h j
    simp only [findSubstr] at h
    split at h
    · exact absurd h (by simp)
    · simpa using ‹¬ matchesAt pat [] = true›
  | cons c t ih =>
    intro h j
    simp only [findSubstr] at h
    split at h
    · exact absurd h (by simp)
    · have ht : findSubstr pat t = none := by
        cases hft : findSubstr pat t with
        | none => rfl
        | some i => rw [hft] at h; simp at h
      cases j with
      | zero => simpa using ‹¬ matchesAt pat (c :: t) = true›
      | succ j' => simpa using ih ht j'

theorem findSubstr_some_matches (pat : List Char) :
    ∀ (l : List Char) (i : Nat), findSubstr pat l = some i →
      matchesAt pat (l.drop i) = true ∧
        ∀ j, j < i → matchesAt pat (l.drop j) = false := by
  intro l
  induction l with
  | nil =>
    intro i h
    simp only [findSubstr] at h
    split at h
    · have : i = 0 := by simpa using h.symm
      subst this
      exact ⟨by simpa using ‹matchesAt pat [] = true›, fun j hj => absurd hj (by omega)⟩
    · exact absurd h (by simp)
  | cons c t ih =>
    intro i h
    simp only [findSubstr] at h
    split at h
    · have : i = 0 := by simpa using h.symm
      subst this
      exact ⟨by simpa using ‹matchesAt pat (c :: t) = true›,
        fun j hj => absurd hj (by omega)⟩
    · cases hft : findSubstr pat t with
      | none => rw [hft] at h; simp at h
      | some i' =>
        rw [hft] at h
        have hi : i = i' + 1 := by
          simp only [ Option.map_some', Option.some.injEq] at h
          omega
        subst hi
        obtain ⟨hmatch, hmin⟩ := ih i' hft
        refine ⟨by simpa using hmatch, ?_⟩
        intro j hj
        cases j with
        | zero => simpa using ‹¬ matchesAt pat (c :: t) = true›
        | succ j' => simpa using hmin j' (by omega)

/-- C9: `parse_request` returns `-1` exactly when the buffer contains no
"\r\n" occurrence; any buffer containing one is accepted, whatever its first
line holds. -/
theorem parse_request_none_iff_no_crlf (raw : List Char) :
    parse_request raw = none ↔ ¬ ∃ i, matchesAt crlf (raw.drop i) = true := by
  cases hf : findSubstr crlf raw with
  | none =>
    have hno : ¬ ∃ i, matchesAt crlf (raw.drop i) = true := by
      rintro ⟨i, hi⟩
      rw [findSubstr_none_matches crlf raw hf i] at hi
      exact absurd hi (by simp)
    simp [parse_request, hf, hno]
  | some i =>
    have hyes : ∃ j, matchesAt crlf (raw.drop j) = true :=
      ⟨i, (findSubstr_some_matches crlf raw i hf).1⟩
    simp [parse_request, hf, hyes]

/-! ### The sscanf token scan agrees with whitespace-splitting -/

theorem tokensOf_nil : tokensOf [] = [] := by
  simp [tokensOf]

theorem tokensOf_cons_space {a : Char} (t : List Char) (ha : isSpaceChar a = true) :
    tokensOf (a :: t) = tokensOf t := by
  simp [tokensOf, List.splitOnP_cons, ha]

theorem filter_modifyHead_splitOnP (c : Char) :
    ∀ (t pr : List Char),
      ((t.splitOnP isSpaceChar).modifyHead ((c :: pr) ++ ·)).filter
          (fun s => !s.isEmpty)
        = ((c :: pr) ++ t.takeWhile (fun x => !isSpaceChar x))
            :: tokensOf (t.dropWhile (fun x => !isSpaceChar x)) := by
  intro t
  induction t with
  | nil =>
    intro pr
    simp [tokensOf]
  | cons a t' ih =>
    intro pr
    by_cases ha : isSpaceChar a = true
    · rw [show ((a :: t').takeWhile fun x => !isSpaceChar x) = [] by
          simp [List.takeWhile_cons, ha],
        show ((a :: t').dropWhile fun x => !isSpaceChar x) = a :: t' by
          simp [List.dropWhile_cons, ha],
        tokensOf_cons_space t' ha]
      simp [List.splitOnP_cons, ha, tokensOf]
    · rw [show ((a :: t').takeWhile fun x => !isSpaceChar x)
            = a :: t'.takeWhile (fun x => !isSpaceChar x) by
          simp [List.takeWhile_cons, ha],
        show ((a :: t').dropWhile fun x => !isSpaceChar x)
            = t'.dropWhile (fun x => !isSpaceChar x) by
          simp [List.dropWhile_cons, ha]]
      rw [List.splitOnP_cons, if_neg (by simpa using ha), List.modifyHead_modifyHead]
      have hcomp : ((fun s => (c :: pr) ++ s) ∘ fun s => a :: s)
          = (fun s => (c :: (pr ++ [a])) ++ s) := by
        funext s
        simp
      rw [hcomp, ih (pr ++ [a])]
      simp

theorem tokensOf_cons_nonspace {a : Char} (t : List Char)
    (ha : ¬ isSpaceChar a = true) :
    tokensOf (a :: t)
      = (a :: t.takeWhile (fun x => !isSpaceChar x))
          :: tokensOf (t.dropWhile (fun x => !isSpaceChar x)) := by
  have h := filter_modifyHead_splitOnP a t []
  simp only [List.nil_append, List.singleton_append] at h
  rw [tokensOf, List.splitOnP_cons, if_neg (by simpa using ha)]
  exact h

theorem tokensOf_headD (l : List Char) :
    (tokensOf l).headD []
      = (l.dropWhile isSpaceChar).takeWhile (fun x => !isSpaceChar x) := by
  induction l with
  | nil => simp [tokensOf]
  | cons a t ih =>
    by_cases ha : isSpaceChar a = true
    · rw [tokensOf_cons_space t ha]
      simpa [List.dropWhile_cons, ha] using ih
    · rw [tokensOf_cons_nonspace t ha]
      simp [List.dropWhile_cons, ha, List.takeWhile_cons]

theorem getD_zero_eq_headD (L : List (List Char)) : L.getD 0 [] = L.headD [] := by
  cases L <;> rfl

theorem tokensOf_getD_one (l : List Char) :
    (tokensOf l).getD 1 []
      = (((l.dropWhile isSpaceChar).dropWhile
            (fun x => !isSpaceChar x)).dropWhile isSpaceChar).takeWhile
          (fun x => !isSpaceChar x) := by
  induction l with
  | nil => simp [tokensOf]
  | cons a t ih =>
    by_cases ha : isSpaceChar a = true
    · rw [tokensOf_cons_space t ha]
      simpa [List.dropWhile_cons, ha] using ih
    · rw [tokensOf_cons_nonspace t ha]
      have hdw : (a :: t).dropWhile isSpaceChar = a :: t := by
        simp [List.dropWhile_cons, ha]
      rw [hdw, show (a :: t).dropWhile (fun x => !isSpaceChar x)
          = t.dropWhile (fun x => !isSpaceChar x) by simp [List.dropWhile_cons, ha]]
      rw [show ∀ (x : List Char) (L : List (List Char)), (x :: L).getD 1 [] = L.getD 0 []
          from fun x L => rfl, getD_zero_eq_headD, tokensOf_headD]

/-- C5 (counterexample): the buffer "GET foo\r\n" parses successfully and the
resulting path is "foo", whose first character is not a slash; the parser
validates nothing about the path. -/
theorem parse_request_path_no_slash_cex :
    parse_request ("GET foo\r\n".toList)
        = some ⟨"GET".toList, "foo".toList, []⟩ ∧
      (("foo".toList).head? = some '/' → False) := by
  decide

/-- C5 (amended): on success, the path produced by `parse_request` is exactly
the second whitespace-delimited token of the raw buffer (empty when there is
no second token); no shape of the path — in particular no leading slash — is
validated. -/
theorem parse_request_path_eq_second_token (raw : List Char) (r : ParsedReq)
    (h : parse_request raw = some r) :
    r.path = (tokensOf raw).getD 1 [] := by
  cases hf : findSubstr crlf raw with
  | none =>
    rw [parse_request.eq_def, hf] at h
    exact absurd h (by simp)
  | some i =>
    rw [parse_request.eq_def, hf] at h
    simp only [Option.some.injEq] at h
    subst h
    rw [tokensOf_getD_one]

/-- Witness for the amended C5 theorem at the concrete buffer "GET /x\r\n". -/
theorem parse_request_path_eq_second_token_witness :
    parse_request ("GET /x\r\n".toList)
        = some ⟨"GET".toList, "/x".toList, []⟩ ∧
      (⟨"GET".toList, "/x".toList, []⟩ : ParsedReq).path
        = (tokensOf ("GET /x\r\n".toList)).getD 1 [] :=
  ⟨by decide,
    parse_request_path_eq_second_token ("GET /x\r\n".toList)
      ⟨"GET".toList, "/x".toList, []⟩ (by decide)⟩

/-- C6 (counterexample): the first line of "GET\r\n" holds a single token,
yet `parse_request` succeeds (returns 0) with an empty path, because the
return value of `sscanf` is never checked. -/
theorem parse_request_single_token_accepted_cex :
    (tokensOf (first_line ("GET\r\n".toList))).length < 2 ∧
      parse_request ("GET\r\n".toList) = some ⟨"GET".toList, [], []⟩ := by
  decide

/-- C6 (amended): a buffer containing "\r\n" is accepted by `parse_request`
even when its first line holds fewer than two whitespace-delimited tokens;
the missing tokens are simply left empty. -/
theorem parse_request_accepts_short_first_line (raw : List Char)
    (hc : ∃ i, matchesAt crlf (raw.drop i) = true)
    (_hfew : (tokensOf (first_line raw)).length < 2) :
    (parse_request raw).isSome = true := by
  cases hf : findSubstr crlf raw with
  | none =>
    obtain ⟨i, hi⟩ := hc
    rw [findSubstr_none_matches crlf raw hf i] at hi
    exact absurd hi (by simp)
  | some i =>
    rw [parse_request.eq_def, hf]
    rfl

/-- Witness for the amended C6 theorem at the concrete buffer "GET\r\n". -/
theorem parse_request_accepts_short_first_line_witness :
    matchesAt crlf (("GET\r\n".toList).drop 3) = true ∧
      (tokensOf (first_line ("GET\r\n".toList))).length < 2 ∧
      (parse_request ("GET\r\n".toList)).isSome = true :=
  ⟨by decide, by decide,
    parse_request_accepts_short_first_line ("GET\r\n".toList)
      ⟨3, by decide⟩ (by decide)⟩

/-- C3 (amended): when the header/body separator first occurs at position
`i`, the `strcpy` of `parse_request` writes the entire remaining suffix plus
its NUL terminator — `raw.length - (i + 4) + 1` bytes — into the body
buffer, with no truncation at `BODY_BUFFER_SIZE`. -/
theorem parse_request_body_copy_untruncated (raw : List Char) (i : Nat)
    (h1 : matchesAt sep4 (raw.drop i) = true)
    (h2 : ∀ j, j < i → matchesAt sep4 (raw.drop j) = false) :
    body_bytes_written raw = (raw.length - (i + 4)) + 1 := by
  have hf : findSubstr sep4 raw = some i := by
    cases hf : findSubstr sep4 raw with
    | none => exact absurd (findSubstr_none_matches sep4 raw hf i) (by simp [h1])
    | some j =>
      obtain ⟨hm, hmin⟩ := findSubstr_some_matches sep4 raw j hf
      rcases Nat.lt_trichotomy j i with hlt | heq | hgt
      · exact absurd hm (by simp [h2 j hlt])
      · rw [heq]
      · exact absurd h1 (by simp [hmin i hgt])
  simp only [body_bytes_written, hf, List.length_drop]

/-- Witness for the amended C3 theorem: separator at position 0 of
"\r\n\r\nab", two body bytes plus the NUL are written. -/
theorem parse_request_body_copy_untruncated_witness :
    matchesAt sep4 (("\r\n\r\nab".toList).drop 0) = true ∧
      body_bytes_written ("\r\n\r\nab".toList)
        = (("\r\n\r\nab".toList).length - (0 + 4)) + 1 :=
  ⟨by decide,
    parse_request_body_copy_untruncated ("\r\n\r\nab".toList) 0 (by decide)
      (fun j hj => absurd hj (Nat.not_lt_zero j))⟩

/-- Buffer for the C3 counterexample: a well-formed first line, the
separator, then a 1500-byte body — 1506 bytes, fitting the 2048-byte
receive buffer. -/
def c3_raw : List Char :=
  ['A', ' ', '\r', '\n', '\r', '\n'] ++ List.replicate 1500 'B'

/-- C3 (counterexample): `c3_raw` fits the receive buffer and contains the
separator, yet `parse_request` writes 1501 bytes into the 1024-byte body
buffer — the copy is not truncated and runs past the end of the buffer. -/
theorem parse_request_body_overflow_cex :
    c3_raw.length + 1 ≤ RECV_BUFFER_SIZE ∧
      (∃ i, matchesAt sep4 (c3_raw.drop i) = true) ∧
      BODY_BUFFER_SIZE < body_bytes_written c3_raw := by
  have hf : findSubstr sep4 c3_raw = some 2 := by decide
  have hdrop : c3_raw.drop (2 + 4) = List.replicate 1500 'B' := by
    have h6 : (['A', ' ', '\r', '\n', '\r', '\n'] : List Char).length = 2 + 4 := rfl
    rw [c3_raw, ← h6, List.drop_left]
  have hbody : body_bytes_written c3_raw = 1501 := by
    simp only [body_bytes_written, hf, hdrop, List.length_replicate]
  refine ⟨?_, ⟨2, by decide⟩, ?_⟩
  · have hlen : c3_raw.length = 1506 := by
      simp only [c3_raw, List.length_append, List.length_cons, List.length_nil,
        List.length_replicate]
    rw [hlen, RECV_BUFFER_SIZE.eq_def]
    omega
  · rw [hbody, BODY_BUFFER_SIZE.eq_def]
    omega

/-! ### Connection worker: one loop iteration (connection.c lines 69-166) -/

/-- Observable outcome of one iteration of the `while (conn->active)` loop of
`handle_connection`: whether the worker leaves the loop (and so closes the
connection), whether it dispatches to a handler, and what it sends. -/
structure IterResult where
  closesConnection : Bool
  dispatched : Bool
  sent : Option (List Char)
  deriving DecidableEq, Repr

/-- One worker loop iteration (lines 69-166), as a function of the `recv`
result (`bytes`, and the received buffer `raw`).  `dispatch` abstracts the
method/path routing of lines 87-162, which computes the response sent for a
successfully parsed request; the parse-failure path never reaches it.  On
`bytes <= 0` the loop breaks, after which the worker closes the socket and
releases the slot; on parse failure there is no else branch: nothing is sent
and the loop returns to `recv`. -/
def worker_iteration (dispatch : ParsedReq → List Char) (bytes : Int)
    (raw : List Char) : IterResult :=
  if bytes ≤ 0 then ⟨true, false, none⟩
  else
    match parse_request raw with
    | some r => ⟨false, true, some (dispatch r)⟩
    | none => ⟨false, false, none⟩

/-- C4 (counterexample): on the malformed buffer "garbage" (no line
terminator) the worker sends nothing at all — there is no canonical error
response on the parse-failure path. -/
theorem worker_malformed_no_response_cex :
    parse_request ("garbage".toList) = none ∧
      worker_iteration (fun _ => []) 1 ("garbage".toList)
        = ⟨false, false, none⟩ := by
  decide

/-- C4 (amended): when `parse_request` fails on a received buffer, the worker
does not close the connection and skips dispatch, but sends no response of
any kind; it silently returns to the Reading state for the next request. -/
theorem worker_malformed_keeps_reading (dispatch : ParsedReq → List Char)
    (bytes : Int) (raw : List Char) (hb : 0 < bytes)
    (hp : parse_request raw = none) :
    worker_iteration dispatch bytes raw = ⟨false, false, none⟩ := by
  simp [worker_iteration, hp, show ¬ bytes ≤ 0 by omega]

/-- Witness for the amended C4 theorem at a one-byte read of "x". -/
theorem worker_malformed_keeps_reading_witness :
    (0 : Int) < 1 ∧ parse_request ("x".toList) = none ∧
      worker_iteration (fun _ => []) 1 ("x".toList) = ⟨false, false, none⟩ :=
  ⟨by decide, by decide,
    worker_malformed_keeps_reading (fun _ => []) 1 ("x".toList)
      (by decide) (by decide)⟩

/-! ### Connection registry (connection.c lines 19-40, 168-231) -/

/-- One entry of the global `connections` table (lines 19-26).  The
`pthread_t` handle carries no observable registry state and is omitted. -/
structure Connection where
  socket : Int
  client_ip : Option (List Char)
  authenticated : Bool
  username : List Char
  active : Bool
  deriving DecidableEq, Repr

/-- The registry state: the fixed 100-slot table (line 28) and `conn_count`
(line 30; a C `int`, so it can go negative — modelled as `Int`). -/
structure RegState where
  connections : Fin MAX_CONNECTIONS → Connection
  conn_count : Int

/-- A zero-initialised slot, as in the zeroed static table. -/
def initConn : Connection :=
  { socket := 0, client_ip := none, authenticated := false, username := [],
    active := false }

/-- The process-start registry state. -/
def initState : RegState := { connections := fun _ => initConn, conn_count := 0 }

/-- Embedding of `find_free_slot` (lines 33-40): the first inactive slot in
index order, `none` when every slot is active (C returns -1). -/
def find_free_slot (st : RegState) : Option (Fin MAX_CONNECTIONS) :=
  (List.finRange MAX_CONNECTIONS).find? (fun i => !(st.connections i).active)

/-- Result of `accept_connection` (lines 183-216): the return value, the
registry state after the call, whether the freshly accepted client socket
was closed, and the slot a worker thread was spawned on, if any. -/
structure AcceptResult where
  ret : Int
  st : RegState
  closedClient : Bool
  spawned : Option (Fin MAX_CONNECTIONS)

/-- Embedding of `accept_connection` (lines 183-216), given the result
`client_socket` of `accept` and the peer address.  A negative
`client_socket` returns -1 with nothing closed; a full table closes the
client socket and returns -1 leaving the state untouched; otherwise the
slot is populated (socket, client_ip, authenticated := 0, active := 1 —
the username field is NOT touched, lines 201-204), `conn_count` is
incremented and a worker is spawned on the slot. -/
def accept_connection (st : RegState) (client_socket : Int) (ip : List Char) :
    AcceptResult :=
  if client_socket < 0 then ⟨-1, st, false, none⟩
  else
    match find_free_slot st with
    | none => ⟨-1, st, true, none⟩
    | some slot =>
      ⟨(slot.val : Int),
        { connections := Function.update st.connections slot
            { st.connections slot with
                socket := client_socket
                client_ip := some ip
                authenticated := false
                active := true }
          conn_count := st.conn_count + 1 },
        false, some slot⟩

/-- Embedding of the worker's release path, the cleanup at the end of
`handle_connection` (lines 168-177): mark the slot inactive, free
`client_ip`, and decrement `conn_count` — unconditionally, whatever the
slot's current state. -/
def release_connection (st : RegState) (slot : Fin MAX_CONNECTIONS) : RegState :=
  { connections := Function.update st.connections slot
      { st.connections slot with active := false, client_ip := none }
    conn_count := st.conn_count - 1 }

/-- Embedding of `close_all_connections` (lines 219-231): deactivate every
active slot and set `conn_count` to 0 (username and client_ip are left). -/
def close_all_connections (st : RegState) : RegState :=
  { connections := fun i =>
      if (st.connections i).active then { st.connections i with active := false }
      else st.connections i
    conn_count := 0 }

/-- Number of slots with `active = 1`. -/
def activeCount (st : RegState) : Nat :=
  (List.finRange MAX_CONNECTIONS).countP (fun i => (st.connections i).active)

/-- C1: in a state where all 100 slots are active, `accept_connection` finds
no free slot, closes the newly accepted client socket, returns -1, and
leaves every slot and `conn_count` unchanged. -/
theorem accept_connection_full_table (st : RegState) (sock : Int)
    (ip : List Char) (hsock : 0 ≤ sock)
    (hfull : ∀ i, (st.connections i).active = true) :
    accept_connection st sock ip = ⟨-1, st, true, none⟩ := by
  have hfree : find_free_slot st = none := by
    rw [find_free_slot, List.find?_eq_none]
    intro i _
    simp [hfull i]
  rw [accept_connection.eq_def, if_neg (by omega), hfree]

/-- A fully occupied table for the C1 witness. -/
def fullConn : Connection :=
  { socket := 3, client_ip := some ("1.2.3.4".toList), authenticated := false,
    username := [], active := true }

/-- Registry state with every slot active. -/
def fullState : RegState :=
  { connections := fun _ => fullConn, conn_count := 100 }

/-- Witness for C1 on the all-active state and client socket 5. -/
theorem accept_connection_full_table_witness :
    (0 : Int) ≤ 5 ∧
      accept_connection fullState 5 [] = ⟨-1, fullState, true, none⟩ :=
  ⟨by decide,
    accept_connection_full_table fullState 5 [] (by decide) (fun _ => rfl)⟩

/-- A table of inactive slots left behind by an authenticated user "alice",
for the C7 counterexample. -/
def staleConn : Connection :=
  { socket := 7, client_ip := none, authenticated := true,
    username := "alice".toList, active := false }

/-- Registry state whose free slots still hold the stale username. -/
def staleState : RegState :=
  { connections := fun _ => staleConn, conn_count := 0 }

/-- C7 (counterexample): accepting into a slot previously used by "alice"
leaves the username "alice" in the slot — the principal is not emptied on a
successful accept. -/
theorem accept_reuses_stale_username_cex :
    (accept_connection staleState 5 []).spawned = some ⟨0, by decide⟩ ∧
      ((accept_connection staleState 5 []).st.connections
          ⟨0, by decide⟩).username = "alice".toList ∧
      "alice".toList ≠ ([] : List Char) := by
  decide

/-- C7 (amended): after every successful `accept_connection` the acquired
slot's `authenticated` flag is false, but its username field keeps whatever
the slot's previous connection left there — it is not reset on acquire. -/
theorem accept_resets_auth_keeps_username (st : RegState) (sock : Int)
    (ip : List Char) (slot : Fin MAX_CONNECTIONS)
    (h : (accept_connection st sock ip).spawned = some slot) :
    ((accept_connection st sock ip).st.connections slot).authenticated = false ∧
      ((accept_connection st sock ip).st.connections slot).username
        = (st.connections slot).username := by
  rw [accept_connection.eq_def] at h ⊢
  by_cases hs : sock < 0
  · rw [if_pos hs] at h
    exact absurd h (by simp)
  · rw [if_neg hs] at h ⊢
    cases hfs : find_free_slot st with
    | none =>
      rw [hfs] at h
      exact absurd h (by simp)
    | some s =>
      rw [hfs] at h
      simp only [Option.some.injEq] at h
      subst h
      simp [Function.update_same]

/-- Witness for the amended C7 theorem on the stale-username state. -/
theorem accept_resets_auth_keeps_username_witness :
    (accept_connection staleState 5 []).spawned = some ⟨0, by decide⟩ ∧
      (((accept_connection staleState 5 []).st.connections
          ⟨0, by decide⟩).authenticated = false ∧
        ((accept_connection staleState 5 []).st.connections
            ⟨0, by decide⟩).username
          = (staleState.connections ⟨0, by decide⟩).username) :=
  ⟨by decide,
    accept_resets_auth_keeps_username staleState 5 [] ⟨0, by decide⟩ (by decide)⟩

/-- C8: after `close_all_connections`, `conn_count` equals 0 and every slot
that was active before the call is inactive. -/
theorem close_all_connections_clears (st : RegState) :
    (close_all_connections st).conn_count = 0 ∧
      ∀ i, (st.connections i).active = true →
        ((close_all_connections st).connections i).active = false := by
  refine ⟨rfl, ?_⟩
  intro i hi
  simp [close_all_connections, hi]

/-- Witness for C8 on the all-active state, checking slot 0. -/
theorem close_all_connections_clears_witness :
    (close_all_connections fullState).conn_count = 0 ∧
      ((close_all_connections fullState).connections ⟨0, by decide⟩).active
        = false :=
  ⟨(close_all_connections_clears fullState).1,
    (close_all_connections_clears fullState).2 ⟨0, by decide⟩ rfl⟩

/-! ### GET dispatch and the /file/ handler (connection.c lines 87-109) -/

/-- A response assembled by `sprintf` with one of the fixed format strings of
`handle_connection`: a status line, an optional Content-Length header, and
the body bytes. -/
structure HttpResponse where
  statusLine : List Char
  contentLength : Option Nat
  body : List Char
  deriving DecidableEq, Repr

/-- Effect of the %s directive of `sprintf`: appended bytes stop at the first
NUL byte of the argument. -/
def cstr_trunc (l : List Char) : List Char :=
  l.takeWhile (fun c => c != Char.ofNat 0)

/-- Bytes `fread(content, 1, sizeof(content) - 1, fp)` returns at line 95:
at most 2047 bytes of the file. -/
def bytes_read (file : List Char) : Nat := (file.take 2047).length

/-- Embedding of the GET /file/ branch body (lines 92-102): on a successful
open, read at most 2047 bytes, NUL-terminate, and build the 200 response
whose Content-Length is the number of bytes read; on a failed open, 404. -/
def handle_file_get (fileOpt : Option (List Char)) : HttpResponse :=
  match fileOpt with
  | some file =>
    { statusLine := "HTTP/1.1 200 OK".toList
      contentLength := some (file.take 2047).length
      body := cstr_trunc (file.take 2047) }
  | none =>
    { statusLine := "HTTP/1.1 404 Not Found".toList
      contentLength := none
      body := "File not found".toList }

/-- Embedding of the GET routing (lines 87-109).  `fs` is the file
collaborator (the `fopen`/`fread` composite): the contents of the file at a
filesystem path when opening succeeds.  The route test is
`strncmp(path, "/file/", 6) == 0` and the opened path is
`"/var/data" + (path + 5)`. -/
def dispatch_get (fs : List Char → Option (List Char)) (path : List Char)
    (connCount : Int) : HttpResponse :=
  if matchesAt ("/file/".toList) path then
    handle_file_get (fs ("/var/data".toList ++ path.drop 5))
  else if path = "/status".toList then
    { statusLine := "HTTP/1.1 200 OK".toList
      contentLength := none
      body := "Server running, connections: ".toList ++ (toString connCount).toList }
  else
    { statusLine := "HTTP/1.1 404 Not Found".toList
      contentLength := none
      body := "Not found".toList }

/-- C10: for a GET whose path begins with "/file/" and whose file opens
successfully, the handler reads `min (file size) 2047` bytes — never more
than 2047 — and the response's Content-Length equals the number of bytes
actually read, so file content beyond 2047 bytes is silently dropped. -/
theorem dispatch_get_file_truncates (fs : List Char → Option (List Char))
    (path : List Char) (cc : Int) (file : List Char)
    (hpre : matchesAt ("/file/".toList) path = true)
    (hopen : fs ("/var/data".toList ++ path.drop 5) = some file) :
    bytes_read file ≤ 2047 ∧
      (dispatch_get fs path cc).contentLength = some (bytes_read file) ∧
      bytes_read file = min file.length 2047 := by
  refine ⟨?_, ?_, ?_⟩
  · exact List.length_take_le 2047 file
  · unfold dispatch_get
    rw [if_pos hpre, hopen]
    rfl
  · simp [bytes_read, List.length_take, Nat.min_comm]

/-- Witness for C10 with a two-byte file served at /file/a. -/
theorem dispatch_get_file_truncates_witness :
    matchesAt ("/file/".toList) ("/file/a".toList) = true ∧
      bytes_read ("hi".toList) ≤ 2047 ∧
      (dispatch_get (fun _ => some ("hi".toList))
          ("/file/a".toList) 0).contentLength = some (bytes_read ("hi".toList)) ∧
      bytes_read ("hi".toList) = min ("hi".toList).length 2047 := by
  have h := dispatch_get_file_truncates (fun _ => some ("hi".toList))
    ("/file/a".toList) 0 ("hi".toList) (by decide) rfl
  exact ⟨by decide, h.1, h.2.1, h.2.2⟩

/-! ### Reachable registry states under the three registry operations (C2) -/

/-- Whole-system state for reachability: the registry plus the list of slots
that still have a live worker thread (spawned by `accept_connection`, not
yet through the cleanup block at the end of `handle_connection`). -/
structure Sys where
  reg : RegState
  workers : List (Fin MAX_CONNECTIONS)

/-- The system at process start: zeroed registry and no workers. -/
def initSys : Sys := { reg := initState, workers := [] }

/-- One step by any of the three registry operations: an `accept_connection`
call (spawning a worker on success); the release path of a live worker (the
cleanup block at the end of `handle_connection`, which a worker runs exactly
once); or `close_all_connections`, which deactivates slots but does not
terminate worker threads — they still run their cleanup afterwards. -/
inductive SysStep : Sys → Sys → Prop
  | accept (s : Sys) (sock : Int) (ip : List Char) :
      SysStep s ⟨(accept_connection s.reg sock ip).st,
        s.workers ++ (accept_connection s.reg sock ip).spawned.toList⟩
  | release (s : Sys) (slot : Fin MAX_CONNECTIONS) (hw : slot ∈ s.workers) :
      SysStep s ⟨release_connection s.reg slot, s.workers.erase slot⟩
  | closeAll (s : Sys) :
      SysStep s ⟨close_all_connections s.reg, s.workers⟩

/-- States reachable by some sequence of the three registry operations. -/
inductive Reachable : Sys → Prop
  | init : Reachable initSys
  | step {s s' : Sys} : Reachable s → SysStep s s' → Reachable s'

/-- State after `accept_connection` on the fresh registry. -/
def c2_s1 : Sys :=
  ⟨(accept_connection initSys.reg 1 []).st,
    initSys.workers ++ (accept_connection initSys.reg 1 []).spawned.toList⟩

/-- State after `close_all_connections`, with worker 0 still live. -/
def c2_s2 : Sys := ⟨close_all_connections c2_s1.reg, c2_s1.workers⟩

/-- State after worker 0 finally runs its cleanup block. -/
def c2_s3 : Sys :=
  ⟨release_connection c2_s2.reg ⟨0, by decide⟩,
    c2_s2.workers.erase ⟨0, by decide⟩⟩

/-- C2 (counterexample): the sequence accept, close_all_connections, then
the surviving worker's cleanup reaches a state with `conn_count = -1` while
zero slots are active — the cleanup decrements unconditionally even though
`close_all_connections` already deactivated the slot and zeroed the count. -/
theorem conn_count_mismatch_cex :
    Reachable c2_s3 ∧ c2_s3.reg.conn_count = -1 ∧ activeCount c2_s3.reg = 0 := by
  refine ⟨?_, by decide, by decide⟩
  have h1 : Reachable c2_s1 :=
    Reachable.step Reachable.init (SysStep.accept initSys 1 [])
  have h2 : Reachable c2_s2 := Reachable.step h1 (SysStep.closeAll c2_s1)
  exact Reachable.step h2 (SysStep.release c2_s2 ⟨0, by decide⟩ (by decide))

/-- The guarded step relation of the amended C2 claim: identical to
`SysStep` except that a worker's release path only runs while its slot is
still active, i.e. no `close_all_connections` has deactivated the slot under
the live worker beforehand. -/
inductive GoodStep : Sys → Sys → Prop
  | accept (s : Sys) (sock : Int) (ip : List Char) :
      GoodStep s ⟨(accept_connection s.reg sock ip).st,
        s.workers ++ (accept_connection s.reg sock ip).spawned.toList⟩
  | release (s : Sys) (slot : Fin MAX_CONNECTIONS) (hw : slot ∈ s.workers)
      (ha : (s.reg.connections slot).active = true) :
      GoodStep s ⟨release_connection s.reg slot, s.workers.erase slot⟩
  | closeAll (s : Sys) :
      GoodStep s ⟨close_all_connections s.reg, s.workers⟩

/-- States reachable when every release happens on a still-active slot. -/
inductive ReachableG : Sys → Prop
  | init : ReachableG initSys
  | step {s s' : Sys} : ReachableG s → GoodStep s s' → ReachableG s'

/-- Updating one slot changes the active count by the difference of the old
and new activity flags (stated additively to stay in `Nat`). -/
theorem countP_update_active (f : Fin MAX_CONNECTIONS → Connection)
    (i : Fin MAX_CONNECTIONS) (c : Connection) :
    (List.finRange MAX_CONNECTIONS).countP
        (fun j => (Function.update f i c j).active)
      + (if (f i).active then 1 else 0)
    = (List.finRange MAX_CONNECTIONS).countP (fun j => (f j).active)
      + (if c.active then 1 else 0) := by
  have hmem : i ∈ List.finRange MAX_CONNECTIONS := List.mem_finRange i
  have hperm := List.perm_cons_erase hmem
  have hnd : (List.finRange MAX_CONNECTIONS).Nodup := List.nodup_finRange _
  rw [List.Perm.countP_eq _ hperm, List.Perm.countP_eq _ hperm,
    List.countP_cons, List.countP_cons, Function.update_same]
  have herase :
      ((List.finRange MAX_CONNECTIONS).erase i).countP
          (fun j => (Function.update f i c j).active)
        = ((List.finRange MAX_CONNECTIONS).erase i).countP
            (fun j => (f j).active) := by
    apply List.countP_congr
    intro x hx
    have hne : x ≠ i := by
      intro he
      subst he
      exact hnd.not_mem_erase hx
    rw [Function.update_noteq hne]
  rw [herase]
  omega

/-- The zeroed table has no active slot. -/
theorem activeCount_init : activeCount initState = 0 := by
  decide

/-- Effect of `accept_connection` on the count and the active slots: either
nothing changes (bad socket or full table) or both go up by one. -/
theorem activeCount_accept (st : RegState) (sock : Int) (ip : List Char) :
    ((accept_connection st sock ip).st.conn_count = st.conn_count ∧
        activeCount (accept_connection st sock ip).st = activeCount st) ∨
      ((accept_connection st sock ip).st.conn_count = st.conn_count + 1 ∧
        activeCount (accept_connection st sock ip).st = activeCount st + 1) := by
  by_cases hs : sock < 0
  · left
    constructor <;> simp [accept_connection, hs]
  · cases hfs : find_free_slot st with
    | none =>
      left
      constructor <;> simp [accept_connection, hs, hfs]
    | some slot =>
      right
      have hinact : (st.connections slot).active = false := by
        have hfs' := hfs
        rw [find_free_slot.eq_def] at hfs'
        simpa using List.find?_some hfs'
      constructor
      · simp [accept_connection, hs, hfs]
      · have hcount := countP_update_active st.connections slot
          { st.connections slot with
              socket := sock
              client_ip := some ip
              authenticated := false
              active := true }
        rw [hinact] at hcount
        simp only [Bool.false_eq_true, if_false, Nat.add_zero, if_true] at hcount
        simpa [accept_connection, hs, hfs, activeCount] using hcount

/-- Effect of the worker release path on a still-active slot: the count goes
down by one and so does the number of active slots. -/
theorem activeCount_release (st : RegState) (slot : Fin MAX_CONNECTIONS)
    (ha : (st.connections slot).active = true) :
    (release_connection st slot).conn_count = st.conn_count - 1 ∧
      activeCount (release_connection st slot) + 1 = activeCount st := by
  refine ⟨rfl, ?_⟩
  have hcount := countP_update_active st.connections slot
    { st.connections slot with active := false, client_ip := none }
  rw [ha] at hcount
  simp only [if_true, Bool.false_eq_true, if_false, Nat.add_zero] at hcount
  simpa [release_connection, activeCount] using hcount

/-- After `close_all_connections` the count is zero and no slot is active. -/
theorem activeCount_closeAll (st : RegState) :
    (close_all_connections st).conn_count = 0 ∧
      activeCount (close_all_connections st) = 0 := by
  refine ⟨rfl, ?_⟩
  simp only [activeCount, close_all_connections]
  rw [List.countP_eq_zero]
  intro i _
  by_cases hi : (st.connections i).active = true <;> simp [hi]

/-- C2 (amended): in every state reachable by accept_connection, worker
release, and close_all_connections where each worker's cleanup runs while
its slot is still active (no close_all_connections snatched the slot away
first), `conn_count` equals the number of slots with `active = 1`. -/
theorem conn_count_matches_active_slots (s : Sys) (h : ReachableG s) :
    s.reg.conn_count = (activeCount s.reg : Int) := by
  induction h with
  | init =>
    show initState.conn_count = (activeCount initState : Int)
    rw [activeCount_init]
    rfl
  | step h1 h2 ih =>
    rename_i s s'
    cases h2 with
    | accept sock ip =>
      show (accept_connection s.reg sock ip).st.conn_count
          = (activeCount (accept_connection s.reg sock ip).st : Int)
      rcases activeCount_accept s.reg sock ip with ⟨hc, ha⟩ | ⟨hc, ha⟩ <;>
        rw [hc, ha] <;> omega
    | release slot hw ha =>
      show (release_connection s.reg slot).conn_count
          = (activeCount (release_connection s.reg slot) : Int)
      obtain ⟨hc, hcnt⟩ := activeCount_release s.reg slot ha
      rw [hc]
      omega
    | closeAll =>
      show (close_all_connections s.reg).conn_count
          = (activeCount (close_all_connections s.reg) : Int)
      obtain ⟨hc, hcnt⟩ := activeCount_closeAll s.reg
      rw [hc, hcnt]
      rfl

/-- Witness for the amended C2 theorem: the invariant holds in the state
reached by one guarded accept from the initial system. -/
theorem conn_count_matches_active_slots_witness :
    c2_s1.reg.conn_count = (activeCount c2_s1.reg : Int) :=
  conn_count_matches_active_slots c2_s1
    (ReachableG.step ReachableG.init (GoodStep.accept initSys 1 []))
